import Mathlib

/-!
Verification of the streaming session engine of the GOOGLE_ADK_USECASES
frontend (frame decoder, session reducer, session controller).

The definitions below are a shallow embedding of:
* `StreamingService.streamAgent` (frontend/src/services/StreamingService.ts):
  the SSE frame decoder;
* `useAgentChat` (frontend/src/hooks/useAgentChat.ts): `sendMessage`,
  `addMessage`, `updateMessage`, `addToolCall`, `handleStreamingResponse`,
  `stopStreaming`, `clearConversation` — the session reducer/controller;
* the types of frontend/src/types/agent.ts.

JavaScript strings are modelled as `String` (reducer side) and as
`List Char` (decoder side, where splitting on newline characters is the
essential operation).  Wall-clock reads (`Date.now()`) and generated
message/tool-call identifiers (`Date.now()-Math.random()` strings) are
ambient inputs of the real program; they are made explicit parameters
(`clock`, `ids` supplies) of the embedded operations.
-/

set_option maxHeartbeats 1000000

namespace AdkChat

/-- `StreamingEventType` from types/agent.ts (nine kinds). -/
inductive EventType where
  | start
  | content
  | tool_call
  | tool_response
  | tool_result
  | thinking
  | error
  | complete
  | metadata
deriving DecidableEq

/-- The metadata keys of `StreamingMetadata` that the engine reads.
Values are opaque; they are modelled as strings. -/
structure EventMeta where
  tool_name : Option String
  tool_args : Option (List (String × String))
  call_id : Option String
  response_id : Option String
  tool_result : Option String
  raw_response : Option String
deriving DecidableEq

/-- `StreamingEvent` from types/agent.ts (fields the engine reads). -/
structure StreamingEvent where
  type : EventType
  content : String
  metadata : EventMeta
  timestamp : Int
deriving DecidableEq

/-- Message roles (`ChatMessage.type`). -/
inductive Role where
  | user
  | assistant
  | system
deriving DecidableEq

/-- `ChatMessage` from types/agent.ts.  `metadata` is written only by the
`complete` branch, which stores the event metadata together with the
`total_events` count. -/
structure ChatMessage where
  id : String
  type : Role
  content : String
  timestamp : Int
  metadata : Option (EventMeta × Nat)
  streaming : Option Bool
  events : Option (List StreamingEvent)
deriving DecidableEq

/-- `ToolCall.status` from types/agent.ts. -/
inductive ToolStatus where
  | pending
  | running
  | completed
  | error
deriving DecidableEq

/-- `ToolCall` from types/agent.ts. -/
structure ToolCall where
  id : String
  name : String
  args : List (String × String)
  timestamp : Int
  status : ToolStatus
  result : Option String
  error : Option String
  duration : Option Int
deriving DecidableEq

/-- `ConversationState` from types/agent.ts. -/
structure ConversationState where
  messages : List ChatMessage
  isLoading : Bool
  isStreaming : Bool
  currentAgent : String
  error : Option String
  toolCalls : List ToolCall
  streamingEvents : List StreamingEvent
deriving DecidableEq

/-- The initial state of `useAgentChat` (the `useState` initialiser). -/
def initState (agentId : String) : ConversationState :=
  { messages := []
    isLoading := false
    isStreaming := false
    currentAgent := agentId
    error := none
    toolCalls := []
    streamingEvents := [] }

/-! ### JavaScript value helpers

`a || b` on JS strings yields `a` when `a` is truthy (defined and
non-empty) and `b` otherwise. -/

/-- JS `a || b` for two optional string values. -/
def jsOr (a b : Option String) : Option String :=
  match a with
  | some s => if s = "" then b else some s
  | none => b

/-- JS `a || d` where `d` is a (truthy) default string. -/
def jsOrStr (a : Option String) (d : String) : String :=
  match a with
  | some s => if s = "" then d else s
  | none => d

/-! ### Frame decoder (`StreamingService.streamAgent`)

The decoder receives chunks of already text-decoded bytes, keeps a carry
buffer, splits on `'\n'`, and treats the final segment (after the last
newline) as the new carry buffer (`buffer = lines.pop() || ''`).  Each
complete line starting with the prefix `"data: "` is stripped and either
recognised as the `"[DONE]"` sentinel (immediate successful return) or
handed to `JSON.parse`; a parse failure is logged and skipped.  The JSON
parser is a host-runtime facility, modelled as the abstract parameter
`parse`; a throw is modelled as `none`. -/

/-- The frame prefix `"data: "`. -/
def dataPfx : List Char := "data: ".toList

/-- The termination sentinel `"[DONE]"`. -/
def doneLit : List Char := "[DONE]".toList

/-- JS `buffer.split('\n')` followed by `buffer = lines.pop() || ''`:
returns the complete (newline-terminated) lines and the trailing
segment that becomes the new carry buffer. -/
def splitLines : List Char → List (List Char) × List Char
  | [] => ([], [])
  | c :: cs =>
    let p := splitLines cs
    if c = '\n' then ([] :: p.1, p.2)
    else
      match p.1 with
      | [] => ([], c :: p.2)
      | l :: ls => ((c :: l) :: ls, p.2)

/-- The inner `for (const line of lines)` loop of `streamAgent`: emits an
event per parseable `data: ` line, stops the whole stream on the
`[DONE]` sentinel (the `Bool` records that the sentinel was seen),
ignores non-matching lines, and drops unparseable payloads. -/
def processLines (parse : List Char → Option StreamingEvent) :
    List (List Char) → List StreamingEvent × Bool
  | [] => ([], false)
  | l :: ls =>
    if dataPfx.isPrefixOf l then
      let data := l.drop 6
      if data = doneLit then ([], true)
      else
        match parse data with
        | some e =>
          let r := processLines parse ls
          (e :: r.1, r.2)
        | none => processLines parse ls
    else processLines parse ls

/-- The chunk-reading `while` loop of `streamAgent`: each chunk is
appended to the carry buffer, complete lines are processed, and the
trailing segment is carried.  When the reader reports end of stream
(`done`), the loop exits and the carry buffer is discarded. -/
def streamAgentLoop (parse : List Char → Option StreamingEvent) :
    List (List Char) → List Char → List StreamingEvent × Bool
  | [], _buffer => ([], false)
  | chunk :: rest, buffer =>
    let p := splitLines (buffer ++ chunk)
    let r := processLines parse p.1
    if r.2 then r
    else
      let r2 := streamAgentLoop parse rest p.2
      (r.1 ++ r2.1, r2.2)

/-- A full decoder run starting from the empty carry buffer. -/
def decodeStream (parse : List Char → Option StreamingEvent)
    (chunks : List (List Char)) : List StreamingEvent × Bool :=
  streamAgentLoop parse chunks []

/-! ### Session reducer and controller (`useAgentChat`)

Each `setState(prev => ...)` call of the hook is translated to a pure
state-to-state function.  Generated identifiers and `Date.now()` reads
are explicit arguments. -/

/-- The message constructed by `addMessage({type:'user', content})`. -/
def mkUserMsg (text uid : String) (now : Int) : ChatMessage :=
  { id := uid
    type := Role.user
    content := text
    timestamp := now
    metadata := none
    streaming := none
    events := none }

/-- The message constructed at the top of `handleStreamingResponse`:
`addMessage({type:'assistant', content:'', streaming:true, events:[]})`. -/
def mkAssistantMsg (aid : String) (now : Int) : ChatMessage :=
  { id := aid
    type := Role.assistant
    content := ""
    timestamp := now
    metadata := none
    streaming := some true
    events := some [] }

/-- `addMessage`: append a freshly built message. -/
def addMessageF (m : ChatMessage) (st : ConversationState) : ConversationState :=
  { st with messages := st.messages ++ [m] }

/-- `updateMessage(messageId, updates)`: map over the messages, merging
the updates into the message whose id matches.  Each call site supplies
its own concrete update `f`. -/
def updateMsg (mid : String) (f : ChatMessage → ChatMessage)
    (st : ConversationState) : ConversationState :=
  { st with messages := st.messages.map fun m => if m.id = mid then f m else m }

/-- The synchronous start of `sendMessage` (lines before the `try`):
append the user message, then reset `isLoading`, `isStreaming`,
`error` and `streamingEvents`. -/
def sendMessageStart (text : String) (useStreaming : Bool) (uid : String)
    (now : Int) (st : ConversationState) : ConversationState :=
  let st1 := addMessageF (mkUserMsg text uid now) st
  { st1 with
      isLoading := true
      isStreaming := useStreaming
      error := none
      streamingEvents := [] }

/-- The first step of `handleStreamingResponse`: append the empty
streaming assistant message. -/
def handleStreamingStart (aid : String) (now : Int)
    (st : ConversationState) : ConversationState :=
  addMessageF (mkAssistantMsg aid now) st

/-- The `finally` block of `sendMessage`. -/
def sendFinally (st : ConversationState) : ConversationState :=
  { st with isLoading := false, isStreaming := false }

/-- The `catch` block of `sendMessage`: record the error message. -/
def setErrorState (msg : String) (st : ConversationState) : ConversationState :=
  { st with error := some msg }

/-- `clearConversation`. -/
def clearConversation (st : ConversationState) : ConversationState :=
  { st with messages := [], toolCalls := [], streamingEvents := [], error := none }

/-- The local variables of `handleStreamingResponse` that the event
callback closes over: the id of the assistant message, the accumulated
`fullContent`, and the local `events` array. -/
structure TurnCtx where
  msgId : String
  fullContent : String
  events : List StreamingEvent
deriving DecidableEq

/-- The per-event callback of `handleStreamingResponse`.  `freshId` and
`now` are the identifier and `Date.now()` value a `tool_call` branch
would consume (the `tool_response` branch reads `now` for the duration).
The callback first pushes the event on the local `events` array and on
`state.streamingEvents`, then dispatches on `event.type`. -/
def applyEvent (freshId : String) (now : Int) (e : StreamingEvent)
    (ctx : TurnCtx) (st : ConversationState) : TurnCtx × ConversationState :=
  let ctx1 : TurnCtx := { ctx with events := ctx.events ++ [e] }
  let st1 : ConversationState :=
    { st with streamingEvents := st.streamingEvents ++ [e] }
  match e.type with
  | EventType.content =>
    let full := ctx.fullContent ++ e.content
    let ctx2 : TurnCtx := { ctx1 with fullContent := full }
    (ctx2, updateMsg ctx.msgId
      (fun m => { m with content := full, events := some ctx2.events }) st1)
  | EventType.tool_call =>
    (ctx1, { st1 with toolCalls := st1.toolCalls ++
      [{ id := freshId
         name := jsOrStr e.metadata.tool_name "unknown"
         args := e.metadata.tool_args.getD []
         timestamp := now
         status := ToolStatus.running
         result := none
         error := none
         duration := none }] })
  | EventType.tool_response =>
    (ctx1, { st1 with toolCalls := st1.toolCalls.map fun call =>
      if (some call.name = e.metadata.tool_name ∧ call.status = ToolStatus.running) then
        { call with
            status := ToolStatus.completed
            result := jsOr e.metadata.raw_response e.metadata.tool_result
            duration := some (now - call.timestamp) }
      else call })
  | EventType.error =>
    (ctx1, { st1 with
        error := some e.content
        toolCalls := st1.toolCalls.map fun call =>
          if call.status = ToolStatus.running then
            { call with status := ToolStatus.error, error := some e.content }
          else call })
  | EventType.complete =>
    (ctx1, updateMsg ctx.msgId
      (fun m => { m with
          streaming := some false
          metadata := some (e.metadata, ctx1.events.length) }) st1)
  | _ => (ctx1, st1)

/-- Apply a list of decoded events in arrival order.  `ids` and `clock`
are the ambient identifier and wall-clock supplies, indexed by the
number of ambient reads already performed (index `i`). -/
def runEvents (ids : Nat → String) (clock : Nat → Int) :
    Nat → List StreamingEvent → TurnCtx → ConversationState →
    TurnCtx × ConversationState
  | _, [], ctx, st => (ctx, st)
  | i, e :: es, ctx, st =>
    let p := applyEvent (ids i) (clock i) e ctx st
    runEvents ids clock (i + 1) es p.1 p.2

/-- The state in the middle of a streaming turn, after the user message,
the assistant placeholder, and the given decoded events have been
applied (`ids 0`/`clock 0` feed `addMessage` for the user message,
`ids 1`/`clock 1` the assistant placeholder). -/
def turnMid (text : String) (ids : Nat → String) (clock : Nat → Int)
    (es : List StreamingEvent) (st : ConversationState) :
    TurnCtx × ConversationState :=
  runEvents ids clock 2 es
    { msgId := ids 1, fullContent := "", events := [] }
    (handleStreamingStart (ids 1) (clock 1)
      (sendMessageStart text true (ids 0) (clock 0) st))

/-- A streaming turn that terminates normally (stream ends, then the
`finally` block runs). -/
def runStreamingTurn (text : String) (ids : Nat → String) (clock : Nat → Int)
    (es : List StreamingEvent) (st : ConversationState) : ConversationState :=
  sendFinally (turnMid text ids clock es st).2

/-- A streaming turn whose transport throws after the events `es` were
delivered (`es = []` models a failure before any event, e.g. a non-ok
HTTP response or an abort): the `catch` block records the error, the
`finally` block clears the flags.  This is also the shape of a
user-initiated `stopStreaming()` (the abort rejects the pending read). -/
def runFailedTurn (text : String) (ids : Nat → String) (clock : Nat → Int)
    (es : List StreamingEvent) (err : String) (st : ConversationState) :
    ConversationState :=
  sendFinally (setErrorState err (turnMid text ids clock es st).2)

/-! ### Analysis helpers

Derived descriptions of the evolution of the individual state
components, used to decompose proofs about `runEvents`. -/

/-- Whether an event is a `content` event. -/
def isContentEv (e : StreamingEvent) : Bool := e.type = EventType.content

/-- Whether an event is a `complete` event. -/
def isCompleteEv (e : StreamingEvent) : Bool := e.type = EventType.complete

/-- Ordered concatenation of the `content` payloads of the `content`
events in a list. -/
def concatContents : List StreamingEvent → String
  | [] => ""
  | e :: es =>
    (if isContentEv e then e.content else "") ++ concatContents es

/-- The prefix of an event list ending at its last `content` event
(empty if there is none): the snapshot of the local `events` array at
the moment of the last `updateMessage` that wrote the `events` field. -/
def snapshot : List StreamingEvent → List StreamingEvent
  | [] => []
  | e :: es =>
    if es.any isContentEv then e :: snapshot es
    else if isContentEv e then [e] else []

/-- Evolution of the turn-local context under one event. -/
def stepCtx (e : StreamingEvent) (ctx : TurnCtx) : TurnCtx :=
  let ctx1 : TurnCtx := { ctx with events := ctx.events ++ [e] }
  if isContentEv e then { ctx1 with fullContent := ctx.fullContent ++ e.content }
  else ctx1

/-- Evolution of the active assistant message under one event, given the
post-push context `ctx1 = stepCtx e ctx`. -/
def stepMsg (e : StreamingEvent) (ctx1 : TurnCtx) (m : ChatMessage) : ChatMessage :=
  match e.type with
  | EventType.content =>
    { m with content := ctx1.fullContent, events := some ctx1.events }
  | EventType.complete =>
    { m with streaming := some false, metadata := some (e.metadata, ctx1.events.length) }
  | _ => m

/-- Combined evolution of context and active message over an event list. -/
def msgFold : List StreamingEvent → TurnCtx → ChatMessage → TurnCtx × ChatMessage
  | [], ctx, m => (ctx, m)
  | e :: es, ctx, m =>
    let ctx1 := stepCtx e ctx
    msgFold es ctx1 (stepMsg e ctx1 m)

/-- Evolution of the tool-call table under one event. -/
def toolStep (freshId : String) (now : Int) (e : StreamingEvent)
    (tcs : List ToolCall) : List ToolCall :=
  match e.type with
  | EventType.tool_call =>
    tcs ++
      [{ id := freshId
         name := jsOrStr e.metadata.tool_name "unknown"
         args := e.metadata.tool_args.getD []
         timestamp := now
         status := ToolStatus.running
         result := none
         error := none
         duration := none }]
  | EventType.tool_response =>
    tcs.map fun call =>
      if (some call.name = e.metadata.tool_name ∧ call.status = ToolStatus.running) then
        { call with
            status := ToolStatus.completed
            result := jsOr e.metadata.raw_response e.metadata.tool_result
            duration := some (now - call.timestamp) }
      else call
  | EventType.error =>
    tcs.map fun call =>
      if call.status = ToolStatus.running then
        { call with status := ToolStatus.error, error := some e.content }
      else call
  | _ => tcs

/-- Evolution of the tool-call table over an event list. -/
def toolFold (ids : Nat → String) (clock : Nat → Int) :
    Nat → List StreamingEvent → List ToolCall → List ToolCall
  | _, [], tcs => tcs
  | i, e :: es, tcs => toolFold ids clock (i + 1) es (toolStep (ids i) (clock i) e tcs)

/-- Evolution of `ConversationState.error` under one event. -/
def errStep (e : StreamingEvent) (err : Option String) : Option String :=
  if e.type = EventType.error then some e.content else err

/-- Evolution of `ConversationState.error` over an event list. -/
def errFold : List StreamingEvent → Option String → Option String
  | [], err => err
  | e :: es, err => errFold es (errStep e err)

/-! ### The single-streaming-message invariant -/

/-- The invariant of claim C3 on a message list: only the most recently
appended message may have `streaming = true` — equivalently, every
message other than the last has `streaming ≠ some true`.  This encodes
both "at most one" and "it is the most recently appended". -/
def msgsInv (l : List ChatMessage) : Prop :=
  ∀ m ∈ l.dropLast, m.streaming ≠ some true

/-- The invariant lifted to a conversation state. -/
def convInv (st : ConversationState) : Prop := msgsInv st.messages

/-- No message of the state has `streaming = true` (holds between
well-formed turns). -/
def noStreamingMsg (st : ConversationState) : Prop :=
  ∀ m ∈ st.messages, m.streaming ≠ some true

instance (l : List ChatMessage) : Decidable (msgsInv l) := by
  unfold msgsInv; infer_instance

instance (st : ConversationState) : Decidable (convInv st) := by
  unfold convInv; infer_instance

instance (st : ConversationState) : Decidable (noStreamingMsg st) := by
  unfold noStreamingMsg; infer_instance

/-! ### Observable projections (claim C9)

Everything of a state except the generator-assigned identifiers, the
wall-clock timestamps, and the clock-derived durations. -/

/-- The observable part of a message. -/
def stripMsg (m : ChatMessage) :
    Role × String × Option Bool × Option (List StreamingEvent) ×
      Option (EventMeta × Nat) :=
  (m.type, m.content, m.streaming, m.events, m.metadata)

/-- The observable part of a tool call. -/
def stripTool (c : ToolCall) :
    String × List (String × String) × ToolStatus × Option String × Option String :=
  (c.name, c.args, c.status, c.result, c.error)

/-- The observable part of a conversation state. -/
def stripState (s : ConversationState) :
    List (Role × String × Option Bool × Option (List StreamingEvent) ×
        Option (EventMeta × Nat)) ×
      List (String × List (String × String) × ToolStatus × Option String ×
        Option String) ×
      Option String × Bool × Bool × String × List StreamingEvent :=
  (s.messages.map stripMsg, s.toolCalls.map stripTool, s.error,
    s.isLoading, s.isStreaming, s.currentAgent, s.streamingEvents)

/-! ### Decomposition lemmas for `applyEvent` and `runEvents` -/

lemma map_update_of_forall_ne (f : ChatMessage → ChatMessage) (mid : String)
    (l : List ChatMessage) (h : ∀ m ∈ l, m.id ≠ mid) :
    (l.map fun m => if m.id = mid then f m else m) = l := by
  induction l with
  | nil => rfl
  | cons a t ih =>
    rw [List.forall_mem_cons] at h
    rw [List.map_cons, if_neg h.1, ih h.2]

lemma map_update_append (f : ChatMessage → ChatMessage) (mid : String)
    (rest : List ChatMessage) (a : ChatMessage)
    (h : ∀ m ∈ rest, m.id ≠ mid) (ha : a.id = mid) :
    ((rest ++ [a]).map fun m => if m.id = mid then f m else m) = rest ++ [f a] := by
  rw [List.map_append, map_update_of_forall_ne f mid rest h]
  simp [ha]

lemma stepCtx_msgId (e : StreamingEvent) (ctx : TurnCtx) :
    (stepCtx e ctx).msgId = ctx.msgId := by
  unfold stepCtx
  split <;> rfl

lemma stepMsg_id (e : StreamingEvent) (ctx1 : TurnCtx) (m : ChatMessage) :
    (stepMsg e ctx1 m).id = m.id := by
  unfold stepMsg
  split <;> rfl

lemma applyEvent_ctx (freshId : String) (now : Int) (e : StreamingEvent)
    (ctx : TurnCtx) (st : ConversationState) :
    (applyEvent freshId now e ctx st).1 = stepCtx e ctx := by
  rcases e with ⟨t, c, md, ts⟩
  cases t <;> simp [applyEvent, stepCtx, isContentEv]

lemma applyEvent_messages (freshId : String) (now : Int) (e : StreamingEvent)
    (ctx : TurnCtx) (st : ConversationState)
    (rest : List ChatMessage) (a : ChatMessage)
    (hm : st.messages = rest ++ [a]) (ha : a.id = ctx.msgId)
    (hr : ∀ m ∈ rest, m.id ≠ ctx.msgId) :
    (applyEvent freshId now e ctx st).2.messages =
      rest ++ [stepMsg e (stepCtx e ctx) a] := by
  rcases e with ⟨t, c, md, ts⟩
  cases t <;>
    simp [applyEvent, stepMsg, stepCtx, isContentEv, updateMsg, hm,
      map_update_append _ _ _ _ hr ha]

lemma applyEvent_streamingEvents (freshId : String) (now : Int)
    (e : StreamingEvent) (ctx : TurnCtx) (st : ConversationState) :
    (applyEvent freshId now e ctx st).2.streamingEvents =
      st.streamingEvents ++ [e] := by
  rcases e with ⟨t, c, md, ts⟩
  cases t <;> simp [applyEvent, updateMsg]

lemma applyEvent_toolCalls (freshId : String) (now : Int) (e : StreamingEvent)
    (ctx : TurnCtx) (st : ConversationState) :
    (applyEvent freshId now e ctx st).2.toolCalls =
      toolStep freshId now e st.toolCalls := by
  rcases e with ⟨t, c, md, ts⟩
  cases t <;> simp [applyEvent, toolStep, updateMsg]

lemma applyEvent_error (freshId : String) (now : Int) (e : StreamingEvent)
    (ctx : TurnCtx) (st : ConversationState) :
    (applyEvent freshId now e ctx st).2.error = errStep e st.error := by
  rcases e with ⟨t, c, md, ts⟩
  cases t <;> simp [applyEvent, errStep, updateMsg]

lemma applyEvent_flags (freshId : String) (now : Int) (e : StreamingEvent)
    (ctx : TurnCtx) (st : ConversationState) :
    (applyEvent freshId now e ctx st).2.isLoading = st.isLoading ∧
    (applyEvent freshId now e ctx st).2.isStreaming = st.isStreaming ∧
    (applyEvent freshId now e ctx st).2.currentAgent = st.currentAgent := by
  rcases e with ⟨t, c, md, ts⟩
  cases t <;> simp [applyEvent, updateMsg]

lemma runEvents_messages (ids : Nat → String) (clock : Nat → Int)
    (es : List StreamingEvent) :
    ∀ (i : Nat) (ctx : TurnCtx) (st : ConversationState)
      (rest : List ChatMessage) (a : ChatMessage),
      st.messages = rest ++ [a] → a.id = ctx.msgId →
      (∀ m ∈ rest, m.id ≠ ctx.msgId) →
      (runEvents ids clock i es ctx st).2.messages =
          rest ++ [(msgFold es ctx a).2] ∧
        (runEvents ids clock i es ctx st).1 = (msgFold es ctx a).1 := by
  induction es with
  | nil =>
    intro i ctx st rest a hm ha hr
    exact ⟨hm, rfl⟩
  | cons e es ih =>
    intro i ctx st rest a hm ha hr
    have hmsg := applyEvent_messages (ids i) (clock i) e ctx st rest a hm ha hr
    have hctx := applyEvent_ctx (ids i) (clock i) e ctx st
    have ha' : (stepMsg e (stepCtx e ctx) a).id = (stepCtx e ctx).msgId := by
      rw [stepMsg_id, stepCtx_msgId, ha]
    have hr' : ∀ m ∈ rest, m.id ≠ (stepCtx e ctx).msgId := by
      intro m hmem
      rw [stepCtx_msgId]
      exact hr m hmem
    have := ih (i + 1) (stepCtx e ctx)
      (applyEvent (ids i) (clock i) e ctx st).2 rest
      (stepMsg e (stepCtx e ctx) a) hmsg ha' hr'
    simpa [runEvents, msgFold, hctx] using this

lemma runEvents_streamingEvents (ids : Nat → String) (clock : Nat → Int)
    (es : List StreamingEvent) :
    ∀ (i : Nat) (ctx : TurnCtx) (st : ConversationState),
      (runEvents ids clock i es ctx st).2.streamingEvents =
        st.streamingEvents ++ es := by
  induction es with
  | nil => intro i ctx st; simp [runEvents]
  | cons e es ih =>
    intro i ctx st
    rw [runEvents, ih, applyEvent_streamingEvents]
    simp

lemma runEvents_toolCalls (ids : Nat → String) (clock : Nat → Int)
    (es : List StreamingEvent) :
    ∀ (i : Nat) (ctx : TurnCtx) (st : ConversationState),
      (runEvents ids clock i es ctx st).2.toolCalls =
        toolFold ids clock i es st.toolCalls := by
  induction es with
  | nil => intro i ctx st; simp [runEvents, toolFold]
  | cons e es ih =>
    intro i ctx st
    rw [runEvents, toolFold, ih, applyEvent_toolCalls]

lemma runEvents_error (ids : Nat → String) (clock : Nat → Int)
    (es : List StreamingEvent) :
    ∀ (i : Nat) (ctx : TurnCtx) (st : ConversationState),
      (runEvents ids clock i es ctx st).2.error = errFold es st.error := by
  induction es with
  | nil => intro i ctx st; simp [runEvents, errFold]
  | cons e es ih =>
    intro i ctx st
    rw [runEvents, errFold, ih, applyEvent_error]

lemma runEvents_flags (ids : Nat → String) (clock : Nat → Int)
    (es : List StreamingEvent) :
    ∀ (i : Nat) (ctx : TurnCtx) (st : ConversationState),
      (runEvents ids clock i es ctx st).2.isLoading = st.isLoading ∧
      (runEvents ids clock i es ctx st).2.isStreaming = st.isStreaming ∧
      (runEvents ids clock i es ctx st).2.currentAgent = st.currentAgent := by
  induction es with
  | nil => intro i ctx st; exact ⟨rfl, rfl, rfl⟩
  | cons e es ih =>
    intro i ctx st
    have h := applyEvent_flags (ids i) (clock i) e ctx st
    have h2 := ih (i + 1) (applyEvent (ids i) (clock i) e ctx st).1
      (applyEvent (ids i) (clock i) e ctx st).2
    rw [runEvents]
    exact ⟨h2.1.trans h.1, h2.2.1.trans h.2.1, h2.2.2.trans h.2.2⟩

/-! ### Field characterisations of `msgFold` -/

lemma stepCtx_events (e : StreamingEvent) (ctx : TurnCtx) :
    (stepCtx e ctx).events = ctx.events ++ [e] := by
  unfold stepCtx
  split <;> rfl

lemma stepCtx_full (e : StreamingEvent) (ctx : TurnCtx) :
    (stepCtx e ctx).fullContent =
      ctx.fullContent ++ (if isContentEv e then e.content else "") := by
  unfold stepCtx
  split <;> simp_all [String.append_empty]

lemma stepMsg_content (e : StreamingEvent) (c : TurnCtx) (m : ChatMessage) :
    (stepMsg e c m).content = if isContentEv e then c.fullContent else m.content := by
  rcases e with ⟨t, co, md, ts⟩
  cases t <;> simp [stepMsg, isContentEv]

lemma stepMsg_events (e : StreamingEvent) (c : TurnCtx) (m : ChatMessage) :
    (stepMsg e c m).events = if isContentEv e then some c.events else m.events := by
  rcases e with ⟨t, co, md, ts⟩
  cases t <;> simp [stepMsg, isContentEv]

lemma stepMsg_streaming (e : StreamingEvent) (c : TurnCtx) (m : ChatMessage) :
    (stepMsg e c m).streaming =
      if isCompleteEv e then some false else m.streaming := by
  rcases e with ⟨t, co, md, ts⟩
  cases t <;> simp [stepMsg, isCompleteEv]

lemma stepMsg_type (e : StreamingEvent) (c : TurnCtx) (m : ChatMessage) :
    (stepMsg e c m).type = m.type := by
  unfold stepMsg
  split <;> rfl

lemma concatContents_of_no_content (es : List StreamingEvent)
    (h : es.any isContentEv = false) : concatContents es = "" := by
  induction es with
  | nil => rfl
  | cons e es ih =>
    rw [List.any_cons, Bool.or_eq_false_iff] at h
    rw [concatContents, if_neg (by simp [h.1]), ih h.2, String.empty_append]

lemma msgFold_ctx_events (es : List StreamingEvent) :
    ∀ (ctx : TurnCtx) (m : ChatMessage),
      (msgFold es ctx m).1.events = ctx.events ++ es := by
  induction es with
  | nil => intro ctx m; simp [msgFold]
  | cons e es ih =>
    intro ctx m
    rw [msgFold, ih, stepCtx_events]
    simp

lemma msgFold_ctx_full (es : List StreamingEvent) :
    ∀ (ctx : TurnCtx) (m : ChatMessage),
      (msgFold es ctx m).1.fullContent = ctx.fullContent ++ concatContents es := by
  induction es with
  | nil =>
    intro ctx m
    rw [msgFold, concatContents, String.append_empty]
  | cons e es ih =>
    intro ctx m
    rw [msgFold, ih, stepCtx_full, concatContents, String.append_assoc]

lemma msgFold_content (es : List StreamingEvent) :
    ∀ (ctx : TurnCtx) (m : ChatMessage),
      (msgFold es ctx m).2.content =
        if es.any isContentEv then ctx.fullContent ++ concatContents es
        else m.content := by
  induction es with
  | nil => intro ctx m; simp [msgFold]
  | cons e es ih =>
    intro ctx m
    rw [msgFold, ih, List.any_cons]
    by_cases he : isContentEv e = true
    · by_cases hes : es.any isContentEv = true
      · rw [if_pos hes, if_pos (by simp [he, hes]), stepCtx_full, if_pos he,
          concatContents, if_pos he, String.append_assoc]
      · rw [if_neg (by simp [hes]), if_pos (by simp [he]),
          stepMsg_content, if_pos he, stepCtx_full, if_pos he, concatContents,
          if_pos he, concatContents_of_no_content es (by simp [hes]),
          String.append_empty]
    · by_cases hes : es.any isContentEv = true
      · rw [if_pos hes, if_pos (by simp [hes]), stepCtx_full, if_neg he,
          concatContents, if_neg he, String.append_empty, String.empty_append]
      · rw [if_neg (by simp [hes]), if_neg (by simp [he, hes]),
          stepMsg_content, if_neg he]

lemma msgFold_events (es : List StreamingEvent) :
    ∀ (ctx : TurnCtx) (m : ChatMessage),
      (msgFold es ctx m).2.events =
        if es.any isContentEv then some (ctx.events ++ snapshot es)
        else m.events := by
  induction es with
  | nil => intro ctx m; simp [msgFold]
  | cons e es ih =>
    intro ctx m
    rw [msgFold, ih, List.any_cons, snapshot]
    by_cases hes : es.any isContentEv = true
    · rw [if_pos hes, if_pos (by simp [hes]), if_pos hes, stepCtx_events]
      simp
    · by_cases he : isContentEv e = true
      · rw [if_neg (by simp [hes]), if_pos (by simp [he]), if_neg (by simp [hes]),
          if_pos he, stepMsg_events, if_pos he, stepCtx_events]
      · rw [if_neg (by simp [hes]), if_neg (by simp [he, hes]),
          stepMsg_events, if_neg he]

lemma msgFold_streaming (es : List StreamingEvent) :
    ∀ (ctx : TurnCtx) (m : ChatMessage),
      (msgFold es ctx m).2.streaming =
        if es.any isCompleteEv then some false else m.streaming := by
  induction es with
  | nil => intro ctx m; simp [msgFold]
  | cons e es ih =>
    intro ctx m
    rw [msgFold, ih, List.any_cons]
    by_cases hes : es.any isCompleteEv = true
    · rw [if_pos hes, if_pos (by simp [hes])]
    · by_cases he : isCompleteEv e = true
      · rw [if_neg (by simp [hes]), if_pos (by simp [he]),
          stepMsg_streaming, if_pos he]
      · rw [if_neg (by simp [hes]), if_neg (by simp [he, hes]),
          stepMsg_streaming, if_neg he]

lemma msgFold_type (es : List StreamingEvent) :
    ∀ (ctx : TurnCtx) (m : ChatMessage),
      (msgFold es ctx m).2.type = m.type := by
  induction es with
  | nil => intro ctx m; rfl
  | cons e es ih =>
    intro ctx m
    rw [msgFold, ih, stepMsg_type]

lemma msgFold_append (es es' : List StreamingEvent) :
    ∀ (ctx : TurnCtx) (m : ChatMessage),
      msgFold (es ++ es') ctx m =
        msgFold es' (msgFold es ctx m).1 (msgFold es ctx m).2 := by
  induction es with
  | nil => intro ctx m; rfl
  | cons e es ih =>
    intro ctx m
    rw [List.cons_append, msgFold, msgFold, ih]

/-! ### Decoder lemmas -/

lemma splitLines_tail_no_nl (l : List Char) : '\n' ∉ (splitLines l).2 := by
  induction l with
  | nil => simp [splitLines]
  | cons c cs ih =>
    rw [splitLines]
    by_cases hc : c = '\n'
    · simpa [hc] using ih
    · simp only [if_neg hc]
      cases h : (splitLines cs).1 with
      | nil =>
        simp only [h]
        intro hmem
        rcases List.mem_cons.mp hmem with h1 | h1
        · exact hc h1.symm
        · exact ih h1
      | cons a as => simpa [h] using ih

lemma splitLines_of_no_nl (l : List Char) (h : '\n' ∉ l) :
    splitLines l = ([], l) := by
  induction l with
  | nil => rfl
  | cons c cs ih =>
    rw [List.mem_cons, not_or] at h
    rw [splitLines, if_neg (fun hc => h.1 hc.symm), ih h.2]

lemma streamAgentLoop_nil (parse : List Char → Option StreamingEvent)
    (buffer : List Char) : streamAgentLoop parse [] buffer = ([], false) := rfl

lemma streamAgentLoop_trailing (parse : List Char → Option StreamingEvent)
    (cs : List (List Char)) :
    ∀ (b t : List Char), '\n' ∉ b → '\n' ∉ t →
      streamAgentLoop parse (cs ++ [t]) b = streamAgentLoop parse cs b := by
  induction cs with
  | nil =>
    intro b t hb ht
    have hbt : '\n' ∉ b ++ t := by
      intro hmem
      rcases List.mem_append.mp hmem with h | h
      · exact hb h
      · exact ht h
    rw [List.nil_append]
    simp [streamAgentLoop, splitLines_of_no_nl _ hbt, processLines]
  | cons c cs ih =>
    intro b t hb ht
    rw [List.cons_append, streamAgentLoop, streamAgentLoop,
      ih _ t (splitLines_tail_no_nl (b ++ c)) ht]

/-! ### Turn-level decomposition -/

/-- The initial turn-local context of `handleStreamingResponse`. -/
def ctx0 (aid : String) : TurnCtx := { msgId := aid, fullContent := "", events := [] }

lemma turnMid_messages (text : String) (ids : Nat → String) (clock : Nat → Int)
    (es : List StreamingEvent) (st : ConversationState)
    (hfresh : ∀ m ∈ st.messages, m.id ≠ ids 1) (hids : ids 0 ≠ ids 1) :
    (turnMid text ids clock es st).2.messages =
        (st.messages ++ [mkUserMsg text (ids 0) (clock 0)]) ++
          [(msgFold es (ctx0 (ids 1)) (mkAssistantMsg (ids 1) (clock 1))).2] ∧
      (turnMid text ids clock es st).1 =
        (msgFold es (ctx0 (ids 1)) (mkAssistantMsg (ids 1) (clock 1))).1 := by
  have hr : ∀ m ∈ st.messages ++ [mkUserMsg text (ids 0) (clock 0)],
      m.id ≠ (ctx0 (ids 1)).msgId := by
    intro m hm
    rcases List.mem_append.mp hm with h | h
    · exact hfresh m h
    · rcases List.mem_singleton.mp h with rfl
      exact hids
  exact runEvents_messages ids clock es 2 (ctx0 (ids 1))
    (handleStreamingStart (ids 1) (clock 1)
      (sendMessageStart text true (ids 0) (clock 0) st))
    (st.messages ++ [mkUserMsg text (ids 0) (clock 0)])
    (mkAssistantMsg (ids 1) (clock 1))
    (by simp [handleStreamingStart, sendMessageStart, addMessageF]) rfl hr

lemma turnMid_streamingEvents (text : String) (ids : Nat → String)
    (clock : Nat → Int) (es : List StreamingEvent) (st : ConversationState) :
    (turnMid text ids clock es st).2.streamingEvents = es := by
  rw [turnMid, runEvents_streamingEvents]
  rfl

lemma turnMid_toolCalls (text : String) (ids : Nat → String)
    (clock : Nat → Int) (es : List StreamingEvent) (st : ConversationState) :
    (turnMid text ids clock es st).2.toolCalls =
      toolFold ids clock 2 es st.toolCalls := by
  rw [turnMid, runEvents_toolCalls]
  rfl

lemma turnMid_error (text : String) (ids : Nat → String)
    (clock : Nat → Int) (es : List StreamingEvent) (st : ConversationState) :
    (turnMid text ids clock es st).2.error = errFold es none := by
  rw [turnMid, runEvents_error]
  rfl

lemma turnMid_flags (text : String) (ids : Nat → String)
    (clock : Nat → Int) (es : List StreamingEvent) (st : ConversationState) :
    (turnMid text ids clock es st).2.isLoading = true ∧
    (turnMid text ids clock es st).2.isStreaming = true ∧
    (turnMid text ids clock es st).2.currentAgent = st.currentAgent := by
  rw [turnMid]
  have h := runEvents_flags ids clock es 2 (ctx0 (ids 1))
    (handleStreamingStart (ids 1) (clock 1)
      (sendMessageStart text true (ids 0) (clock 0) st))
  simpa [handleStreamingStart, sendMessageStart, addMessageF, ctx0] using h

/-! ### Supply-independence of the observable projections -/

/-- The parts of the turn-local context that do not depend on the
ambient supplies (everything but the generated message id). -/
def ctxObs (c1 c2 : TurnCtx) : Prop :=
  c1.fullContent = c2.fullContent ∧ c1.events = c2.events

lemma stepCtx_obs (e : StreamingEvent) (c1 c2 : TurnCtx) (h : ctxObs c1 c2) :
    ctxObs (stepCtx e c1) (stepCtx e c2) := by
  unfold stepCtx
  rcases h with ⟨h1, h2⟩
  by_cases he : isContentEv e = true <;>
    simp [he, h1, h2, ctxObs]

lemma stepMsg_strip (e : StreamingEvent) (c1 c2 : TurnCtx)
    (m1 m2 : ChatMessage) (hc : ctxObs c1 c2)
    (hm : stripMsg m1 = stripMsg m2) :
    stripMsg (stepMsg e c1 m1) = stripMsg (stepMsg e c2 m2) := by
  rcases hc with ⟨hc1, hc2⟩
  simp only [stripMsg, Prod.mk.injEq] at hm
  rcases e with ⟨t, co, md, ts⟩
  cases t <;>
    simp_all [stepMsg, stripMsg]

lemma msgFold_strip (es : List StreamingEvent) :
    ∀ (c1 c2 : TurnCtx) (m1 m2 : ChatMessage), ctxObs c1 c2 →
      stripMsg m1 = stripMsg m2 →
      stripMsg (msgFold es c1 m1).2 = stripMsg (msgFold es c2 m2).2 := by
  induction es with
  | nil => intro c1 c2 m1 m2 _ hm; exact hm
  | cons e es ih =>
    intro c1 c2 m1 m2 hc hm
    rw [msgFold, msgFold]
    exact ih _ _ _ _ (stepCtx_obs e c1 c2 hc)
      (stepMsg_strip e _ _ m1 m2 (stepCtx_obs e c1 c2 hc) hm)

lemma map_strip_map (f g : ToolCall → ToolCall)
    (hfg : ∀ c1 c2, stripTool c1 = stripTool c2 →
      stripTool (f c1) = stripTool (g c2)) :
    ∀ (l1 l2 : List ToolCall), l1.map stripTool = l2.map stripTool →
      (l1.map f).map stripTool = (l2.map g).map stripTool := by
  intro l1
  induction l1 with
  | nil =>
    intro l2 h
    cases l2 with
    | nil => rfl
    | cons b t => simp at h
  | cons a t ih =>
    intro l2 h
    cases l2 with
    | nil => simp at h
    | cons b t2 =>
      simp only [List.map_cons, List.cons.injEq] at h ⊢
      exact ⟨hfg a b h.1, ih t2 h.2⟩

lemma toolStep_strip (e : StreamingEvent) (idA idB : String) (nowA nowB : Int)
    (tcs1 tcs2 : List ToolCall)
    (h : tcs1.map stripTool = tcs2.map stripTool) :
    (toolStep idA nowA e tcs1).map stripTool =
      (toolStep idB nowB e tcs2).map stripTool := by
  rcases e with ⟨t, co, md, ts⟩
  cases t <;> simp only [toolStep]
  case tool_call => simp [h, stripTool]
  case tool_response =>
    refine map_strip_map _ _ ?_ tcs1 tcs2 h
    intro c1 c2 hc
    simp only [stripTool, Prod.mk.injEq] at hc
    obtain ⟨h1, h2, h3, h4, h5⟩ := hc
    by_cases hcond : (some c1.name = md.tool_name ∧ c1.status = ToolStatus.running)
    · rw [if_pos hcond, if_pos (by rw [← h1, ← h3]; exact hcond)]
      simp [stripTool, h1, h2, h5]
    · rw [if_neg hcond, if_neg (by rw [← h1, ← h3]; exact hcond)]
      simp [stripTool, h1, h2, h3, h4, h5]
  case error =>
    refine map_strip_map _ _ ?_ tcs1 tcs2 h
    intro c1 c2 hc
    simp only [stripTool, Prod.mk.injEq] at hc
    obtain ⟨h1, h2, h3, h4, h5⟩ := hc
    by_cases hcond : c1.status = ToolStatus.running
    · rw [if_pos hcond, if_pos (h3 ▸ hcond)]
      simp [stripTool, h1, h2, h4]
    · rw [if_neg hcond, if_neg (h3 ▸ hcond)]
      simp [stripTool, h1, h2, h3, h4, h5]
  all_goals exact h

lemma toolFold_strip (idsA idsB : Nat → String) (clockA clockB : Nat → Int)
    (es : List StreamingEvent) :
    ∀ (iA iB : Nat) (tcs1 tcs2 : List ToolCall),
      tcs1.map stripTool = tcs2.map stripTool →
      (toolFold idsA clockA iA es tcs1).map stripTool =
        (toolFold idsB clockB iB es tcs2).map stripTool := by
  induction es with
  | nil => intro iA iB tcs1 tcs2 h; exact h
  | cons e es ih =>
    intro iA iB tcs1 tcs2 h
    rw [toolFold, toolFold]
    exact ih _ _ _ _ (toolStep_strip e _ _ _ _ _ _ h)

/-! ### Invariant preservation lemmas -/

lemma msgsInv_append_last (l : List ChatMessage) (m : ChatMessage)
    (h : ∀ x ∈ l, x.streaming ≠ some true) : msgsInv (l ++ [m]) := by
  intro x hx
  rw [List.dropLast_concat] at hx
  exact h x hx

lemma msgsInv_map_update (l : List ChatMessage) (mid : String)
    (f : ChatMessage → ChatMessage)
    (hf : ∀ m, (f m).streaming = m.streaming ∨ (f m).streaming = some false)
    (h : msgsInv l) :
    msgsInv (l.map fun m => if m.id = mid then f m else m) := by
  intro x hx
  rw [← List.map_dropLast] at hx
  rcases List.mem_map.mp hx with ⟨a, ha, rfl⟩
  have hstr := h a ha
  by_cases hid : a.id = mid
  · rw [if_pos hid]
    rcases hf a with h1 | h1
    · rw [h1]; exact hstr
    · rw [h1]; simp
  · rw [if_neg hid]; exact hstr

lemma applyEvent_convInv (freshId : String) (now : Int) (e : StreamingEvent)
    (ctx : TurnCtx) (st : ConversationState) (h : convInv st) :
    convInv (applyEvent freshId now e ctx st).2 := by
  rcases e with ⟨t, co, md, ts⟩
  cases t <;>
    first
      | exact h
      | (refine msgsInv_map_update st.messages ctx.msgId _ ?_ h
         intro m
         first
           | exact Or.inl rfl
           | exact Or.inr rfl)

/-! ### Concrete fixtures used by counterexamples and witnesses -/

/-- Empty metadata record. -/
def noMeta : EventMeta := ⟨none, none, none, none, none, none⟩

/-- A sample identifier supply: `"a"`, `"aa"`, `"aaa"`, ... -/
def ids0 : Nat → String := fun i => String.mk (List.replicate (i + 1) 'a')

/-- A second, disjoint identifier supply: `"b"`, `"bb"`, ... -/
def idsB : Nat → String := fun i => String.mk (List.replicate (i + 1) 'b')

/-- A sample wall-clock supply. -/
def clock0 : Nat → Int := fun i => (i : Int)

def evStart : StreamingEvent := ⟨EventType.start, "", noMeta, 10⟩

def evHel : StreamingEvent := ⟨EventType.content, "Hel", noMeta, 11⟩

def evLo : StreamingEvent := ⟨EventType.content, "lo", noMeta, 12⟩

def evWorld : StreamingEvent := ⟨EventType.content, " World", noMeta, 15⟩

def evThinking : StreamingEvent := ⟨EventType.thinking, "hmm", noMeta, 12⟩

def evCalc : StreamingEvent :=
  ⟨EventType.tool_call, "",
    ⟨some "calc", some [("expression", "43*12")], some "c1", none, none, none⟩, 13⟩

def evCalcResp : StreamingEvent :=
  ⟨EventType.tool_response, "",
    ⟨some "calc", none, none, some "c1", none, some "42"⟩, 14⟩

def evComplete : StreamingEvent := ⟨EventType.complete, "", noMeta, 16⟩

/-- The worked scenario of the specification (section 8). -/
def scen : List StreamingEvent :=
  [evStart, evHel, evLo, evCalc, evCalcResp, evWorld, evComplete]

/-- A state with a stream in flight: user message sent, assistant
placeholder appended, no events yet. -/
def stMid : ConversationState := (turnMid "hi" ids0 clock0 [] (initState "agent")).2

/-! ## Claim C1 -/

/-- C1 (counterexample): `sendMessage` invoked while `isStreaming = true`
is not rejected — starting from a state with a stream in flight, its
synchronous prefix appends a user message and changes the state, so the
second call is not a no-op. -/
theorem claim_C1_counterexample :
    stMid.isStreaming = true ∧
      (sendMessageStart "again" true "u2" 7 stMid).messages ≠ stMid.messages ∧
      sendMessageStart "again" true "u2" 7 stMid ≠ stMid := by
  decide

/-- C1 (amended): `sendMessage` has no in-flight guard: every call —
including one made while `isStreaming = true` — unconditionally appends
a user message and resets `isLoading`, `isStreaming`, `error` and
`streamingEvents`. -/
theorem claim_C1_amended (st : ConversationState) (text uid : String)
    (useStreaming : Bool) (now : Int) :
    (sendMessageStart text useStreaming uid now st).messages =
        st.messages ++ [mkUserMsg text uid now] ∧
      (sendMessageStart text useStreaming uid now st).isStreaming = useStreaming ∧
      (sendMessageStart text useStreaming uid now st).isLoading = true ∧
      (sendMessageStart text useStreaming uid now st).error = none ∧
      (sendMessageStart text useStreaming uid now st).streamingEvents = [] := by
  exact ⟨rfl, rfl, rfl, rfl, rfl⟩

/-! ## Claim C3 -/

/-- C3 (counterexample): the single-streaming-message invariant is not
preserved by every operation: `sendMessage` during an in-flight stream
appends a user message after the streaming assistant message, so the
streaming message is no longer the most recently appended one. -/
theorem claim_C3_counterexample :
    convInv stMid ∧ ¬ convInv (sendMessageStart "again" true "u2" 7 stMid) := by
  decide

/-- C3 (amended): the invariant "at most one assistant message has
`streaming = true`, and it is the most recently appended message" is
preserved by `sendMessage` and by the start of a streaming turn only
when no message is currently streaming; it is preserved unconditionally
by every event application, by the `finally` and `catch` blocks, and by
`clearConversation`. -/
theorem claim_C3_amended :
    (∀ (st : ConversationState) (text uid : String) (b : Bool) (now : Int),
        noStreamingMsg st → convInv (sendMessageStart text b uid now st)) ∧
      (∀ (st : ConversationState) (aid : String) (now : Int),
        noStreamingMsg st → convInv (handleStreamingStart aid now st)) ∧
      (∀ (st : ConversationState) (freshId : String) (now : Int)
          (e : StreamingEvent) (ctx : TurnCtx),
        convInv st → convInv (applyEvent freshId now e ctx st).2) ∧
      (∀ st : ConversationState, convInv st → convInv (sendFinally st)) ∧
      (∀ (st : ConversationState) (msg : String),
        convInv st → convInv (setErrorState msg st)) ∧
      (∀ st : ConversationState, convInv (clearConversation st)) := by
  refine ⟨?_, ?_, ?_, ?_, ?_, ?_⟩
  · intro st text uid b now h
    exact msgsInv_append_last st.messages _ h
  · intro st aid now h
    exact msgsInv_append_last st.messages _ h
  · intro st freshId now e ctx h
    exact applyEvent_convInv freshId now e ctx st h
  · intro st h
    exact h
  · intro st msg h
    exact h
  · intro st m hm
    simp [clearConversation] at hm

/-- C3 (witness): the amended preservation facts applied to concrete
states. -/
theorem claim_C3_witness :
    convInv (sendMessageStart "hi" true "u1" 0 (initState "agent")) ∧
      convInv (applyEvent "x" 3 evHel (ctx0 "aa") stMid).2 :=
  ⟨claim_C3_amended.1 (initState "agent") "hi" "u1" true 0 (by decide),
    claim_C3_amended.2.2.1 stMid "x" 3 evHel (ctx0 "aa") (by decide)⟩

/-! ## Claim C2 -/

def evCallAlpha : StreamingEvent :=
  ⟨EventType.tool_call, "", ⟨some "alpha", none, some "c1", none, none, none⟩, 20⟩

def evCallBeta : StreamingEvent :=
  ⟨EventType.tool_call, "", ⟨some "beta", none, some "c2", none, none, none⟩, 21⟩

/-- A `tool_response` whose `response_id` is `"c1"` (the `call_id` of
`evCallAlpha`) while its `tool_name` field says `"beta"`. -/
def evRespForAlpha : StreamingEvent :=
  ⟨EventType.tool_response, "", ⟨some "beta", none, none, some "c1", none, some "7"⟩, 22⟩

/-- C2 (counterexample): processing `tool_call(alpha, call_id=c1)`,
`tool_call(beta, call_id=c2)` and then `tool_response(response_id=c1,
tool_name=beta)` completes the `beta` execution and leaves the `alpha`
execution — the one whose `call_id` equals the response's
`response_id` — running: the target is not resolved by
`metadata.response_id`, and the name-based match is used even though a
`response_id` is present. -/
theorem claim_C2_counterexample :
    (runStreamingTurn "go" ids0 clock0 [evCallAlpha, evCallBeta, evRespForAlpha]
          (initState "agent")).toolCalls.map (fun c => (c.name, c.status)) =
      [("alpha", ToolStatus.running), ("beta", ToolStatus.completed)] := by
  decide

/-- Relation between a tool call before and after a `tool_response`
event is applied at time `now`: a running call whose name equals the
response's `tool_name` is completed with the JS-truthy choice between
`raw_response` and `tool_result` and a duration measured from the
wall clock; every other call is untouched. -/
def respRel (e : StreamingEvent) (now : Int) (c c1 : ToolCall) : Prop :=
  ((some c.name = e.metadata.tool_name ∧ c.status = ToolStatus.running) →
      c1.status = ToolStatus.completed ∧
      c1.result = jsOr e.metadata.raw_response e.metadata.tool_result ∧
      c1.duration = some (now - c.timestamp) ∧
      (c.timestamp ≤ now → ∀ d ∈ c1.duration, 0 ≤ d)) ∧
    (¬ (some c.name = e.metadata.tool_name ∧ c.status = ToolStatus.running) →
      c1 = c)

/-- C2 (amended): a `tool_response` event completes every execution
whose status is `running` and whose name equals the event's
`metadata.tool_name`; `metadata.response_id` is not consulted.  Each
completed execution receives `result = raw_response || tool_result` and
`duration = now - startedAt`, which is nonnegative whenever the wall
clock has not gone backwards; all other executions are unchanged and
none are added or removed. -/
theorem claim_C2_amended (freshId : String) (now : Int) (e : StreamingEvent)
    (ctx : TurnCtx) (st : ConversationState)
    (he : e.type = EventType.tool_response) :
    List.Forall₂ (respRel e now) st.toolCalls
      (applyEvent freshId now e ctx st).2.toolCalls := by
  rw [applyEvent_toolCalls]
  rcases e with ⟨t, co, md, ts⟩
  cases he
  rw [toolStep]
  induction st.toolCalls with
  | nil => constructor
  | cons c tcs ih =>
    rw [List.map_cons]
    refine List.Forall₂.cons ?_ ih
    by_cases hcond : (some c.name = md.tool_name ∧ c.status = ToolStatus.running)
    · rw [if_pos hcond]
      refine ⟨fun _ => ⟨rfl, rfl, rfl, fun hts d hd => ?_⟩, fun hn => absurd hcond hn⟩
      simp only [Option.mem_def, Option.some.injEq] at hd
      omega
    · rw [if_neg hcond]
      exact ⟨fun hc => absurd hc hcond, fun _ => rfl⟩

/-- A mid-turn state holding one running `calc` execution. -/
def stCalcRunning : ConversationState :=
  (turnMid "compute" ids0 clock0 [evCalc] (initState "agent")).2

/-- C2 (witness): the amended description applied to a concrete state
holding one running `calc` execution. -/
theorem claim_C2_amended_witness :
    List.Forall₂ (respRel evCalcResp 30) stCalcRunning.toolCalls
      (applyEvent "x" 30 evCalcResp (ctx0 "aa") stCalcRunning).2.toolCalls :=
  claim_C2_amended "x" 30 evCalcResp (ctx0 "aa") stCalcRunning rfl

/-! ### The active message at the end of a turn -/

/-- The assistant message produced by folding `es` over the fresh
placeholder. -/
def turnMsg (aid : String) (ts : Int) (es : List StreamingEvent) : ChatMessage :=
  (msgFold es (ctx0 aid) (mkAssistantMsg aid ts)).2

lemma turnMsg_content (aid : String) (ts : Int) (es : List StreamingEvent) :
    (turnMsg aid ts es).content = concatContents es := by
  rw [turnMsg, msgFold_content]
  by_cases h : es.any isContentEv = true
  · rw [if_pos h]
    exact String.empty_append _
  · rw [if_neg h, concatContents_of_no_content es (by simpa using h)]
    rfl

lemma turnMsg_events (aid : String) (ts : Int) (es : List StreamingEvent) :
    (turnMsg aid ts es).events =
      some (if es.any isContentEv then snapshot es else []) := by
  rw [turnMsg, msgFold_events]
  by_cases h : es.any isContentEv = true
  · rw [if_pos h, if_pos h]
    rfl
  · rw [if_neg h, if_neg h]
    rfl

lemma turnMsg_streaming (aid : String) (ts : Int) (es : List StreamingEvent) :
    (turnMsg aid ts es).streaming =
      if es.any isCompleteEv then some false else some true := by
  rw [turnMsg, msgFold_streaming]
  rfl

lemma turnMid_getLast (text : String) (ids : Nat → String) (clock : Nat → Int)
    (es : List StreamingEvent) (st : ConversationState)
    (hfresh : ∀ m ∈ st.messages, m.id ≠ ids 1) (hids : ids 0 ≠ ids 1) :
    (turnMid text ids clock es st).2.messages.getLast? =
      some (turnMsg (ids 1) (clock 1) es) := by
  rw [(turnMid_messages text ids clock es st hfresh hids).1, List.getLast?_concat]
  rfl

/-! ## Claim C4 -/

/-- C4 (counterexample): an event that is not a `content` event is never
written to the active assistant message's `events` field: after a turn
whose only decoded event is a `thinking` event, the message's `events`
is still the initial empty list, and after the specification's worked
scenario (7 events, the last being `complete`) the message's `events`
holds only 6 events — the trailing `complete` is missing. -/
theorem claim_C4_counterexample :
    (runStreamingTurn "q" ids0 clock0 [evThinking]
        (initState "agent")).streamingEvents = [evThinking] ∧
      ((runStreamingTurn "q" ids0 clock0 [evThinking]
          (initState "agent")).messages.getLast?).map (fun m => m.events) =
        some (some []) ∧
      ((runStreamingTurn "compute" ids0 clock0 scen
          (initState "agent")).messages.getLast?).map
          (fun m => (m.events.getD []).length) = some 6 ∧
      scen.length = 7 := by
  decide

/-- C4 (amended): every decoded event is recorded exactly once, in
arrival order, in the conversation's `streamingEvents` list and in the
turn-local `events` array; the active message's `events` field, however,
is refreshed only by `content` events (the `complete` handler does not
write it), so after the stream terminates it equals the prefix of the
decoded events ending at the last `content` event — the initial empty
list if there was none. -/
theorem claim_C4_amended (st : ConversationState) (text : String)
    (ids : Nat → String) (clock : Nat → Int) (es : List StreamingEvent)
    (hfresh : ∀ m ∈ st.messages, m.id ≠ ids 1) (hids : ids 0 ≠ ids 1) :
    (runStreamingTurn text ids clock es st).streamingEvents = es ∧
      (turnMid text ids clock es st).1.events = es ∧
      ∃ m, (runStreamingTurn text ids clock es st).messages.getLast? = some m ∧
        m.events = some (if es.any isContentEv then snapshot es else []) := by
  refine ⟨turnMid_streamingEvents text ids clock es st, ?_, ?_⟩
  · rw [(turnMid_messages text ids clock es st hfresh hids).2, msgFold_ctx_events]
    rfl
  · refine ⟨turnMsg (ids 1) (clock 1) es, ?_, turnMsg_events _ _ _⟩
    exact turnMid_getLast text ids clock es st hfresh hids

/-- C4 (witness): the amended statement at the specification's worked
scenario. -/
theorem claim_C4_amended_witness :
    (runStreamingTurn "compute" ids0 clock0 scen
        (initState "agent")).streamingEvents = scen ∧
      (turnMid "compute" ids0 clock0 scen (initState "agent")).1.events = scen ∧
      ∃ m, (runStreamingTurn "compute" ids0 clock0 scen
          (initState "agent")).messages.getLast? = some m ∧
        m.events = some (if scen.any isContentEv then snapshot scen else []) :=
  claim_C4_amended (initState "agent") "compute" ids0 clock0 scen
    (by decide) (by decide)

/-! ## Claim C5 -/

/-- C5 (counterexample): a transport failure before any event is
received does end the conversation in a terminal error state, but a
partial assistant message has already been created: the placeholder is
appended before the network call, and nothing removes it on failure. -/
theorem claim_C5_counterexample :
    (runFailedTurn "hi" ids0 clock0 [] "Failed to stream agent"
          (initState "agent")).error = some "Failed to stream agent" ∧
      (runFailedTurn "hi" ids0 clock0 [] "Failed to stream agent"
          (initState "agent")).isStreaming = false ∧
      (runFailedTurn "hi" ids0 clock0 [] "Failed to stream agent"
          (initState "agent")).messages.map
          (fun m => (m.type, m.content, m.streaming)) =
        [(Role.user, "hi", none), (Role.assistant, "", some true)] := by
  decide

/-- C5 (amended): a transport failure surfaces as `error` set and
`isStreaming = false`, but an empty assistant placeholder message (with
`streaming` still `true`) remains in the conversation when the failure
precedes every event; a mid-stream failure preserves all previously
applied event effects — accumulated content, recorded events and the
tool-call table — and sets `isStreaming = false` and `error` to the
failure message. -/
theorem claim_C5_amended (st : ConversationState) (text err : String)
    (ids : Nat → String) (clock : Nat → Int) (es : List StreamingEvent)
    (hfresh : ∀ m ∈ st.messages, m.id ≠ ids 1) (hids : ids 0 ≠ ids 1) :
    (runFailedTurn text ids clock es err st).error = some err ∧
      (runFailedTurn text ids clock es err st).isStreaming = false ∧
      (runFailedTurn text ids clock es err st).isLoading = false ∧
      (es = [] → (runFailedTurn text ids clock es err st).messages =
        st.messages ++
          [mkUserMsg text (ids 0) (clock 0), mkAssistantMsg (ids 1) (clock 1)]) ∧
      (∃ m, (runFailedTurn text ids clock es err st).messages.getLast? = some m ∧
        m.content = concatContents es) ∧
      (runFailedTurn text ids clock es err st).streamingEvents = es ∧
      (runFailedTurn text ids clock es err st).toolCalls =
        toolFold ids clock 2 es st.toolCalls := by
  refine ⟨rfl, rfl, rfl, ?_, ?_, ?_, ?_⟩
  · rintro rfl
    show (turnMid text ids clock [] st).2.messages = _
    rw [(turnMid_messages text ids clock [] st hfresh hids).1]
    simp [msgFold, turnMsg]
  · refine ⟨turnMsg (ids 1) (clock 1) es, ?_, turnMsg_content _ _ _⟩
    show (turnMid text ids clock es st).2.messages.getLast? = _
    exact turnMid_getLast text ids clock es st hfresh hids
  · exact turnMid_streamingEvents text ids clock es st
  · exact turnMid_toolCalls text ids clock es st

/-- C5 (witness): the amended statement at a concrete mid-stream
failure after two content events. -/
theorem claim_C5_amended_witness :
    (runFailedTurn "hi" ids0 clock0 [evHel, evLo] "connection reset"
          (initState "agent")).error = some "connection reset" ∧
      (runFailedTurn "hi" ids0 clock0 [evHel, evLo] "connection reset"
          (initState "agent")).isStreaming = false ∧
      (runFailedTurn "hi" ids0 clock0 [evHel, evLo] "connection reset"
          (initState "agent")).isLoading = false ∧
      ([evHel, evLo] = ([] : List StreamingEvent) →
        (runFailedTurn "hi" ids0 clock0 [evHel, evLo] "connection reset"
            (initState "agent")).messages =
          (initState "agent").messages ++
            [mkUserMsg "hi" (ids0 0) (clock0 0), mkAssistantMsg (ids0 1) (clock0 1)]) ∧
      (∃ m, (runFailedTurn "hi" ids0 clock0 [evHel, evLo] "connection reset"
            (initState "agent")).messages.getLast? = some m ∧
        m.content = concatContents [evHel, evLo]) ∧
      (runFailedTurn "hi" ids0 clock0 [evHel, evLo] "connection reset"
          (initState "agent")).streamingEvents = [evHel, evLo] ∧
      (runFailedTurn "hi" ids0 clock0 [evHel, evLo] "connection reset"
          (initState "agent")).toolCalls =
        toolFold ids0 clock0 2 [evHel, evLo] (initState "agent").toolCalls :=
  claim_C5_amended (initState "agent") "hi" "connection reset" ids0 clock0
    [evHel, evLo] (by decide) (by decide)

/-! ## Claim C6 -/

lemma concatContents_append (es es2 : List StreamingEvent) :
    concatContents (es ++ es2) = concatContents es ++ concatContents es2 := by
  induction es with
  | nil => rw [List.nil_append, concatContents, String.empty_append]
  | cons e es ih =>
    rw [List.cons_append, concatContents, concatContents, ih, String.append_assoc]

/-- C6: the assistant message's final content is the ordered
concatenation of the `content` payloads of the `content` events, and
content grows monotonically: the content after any extended event
sequence extends the content after a prefix by a suffix (it is never
replaced wholesale). -/
theorem claim_C6_content (st : ConversationState) (text : String)
    (ids : Nat → String) (clock : Nat → Int)
    (hfresh : ∀ m ∈ st.messages, m.id ≠ ids 1) (hids : ids 0 ≠ ids 1) :
    (∀ es, ∃ m,
        (runStreamingTurn text ids clock es st).messages.getLast? = some m ∧
          m.content = concatContents es) ∧
      (∀ es es2, ∃ t, concatContents (es ++ es2) = concatContents es ++ t) := by
  constructor
  · intro es
    refine ⟨turnMsg (ids 1) (clock 1) es, ?_, turnMsg_content _ _ _⟩
    exact turnMid_getLast text ids clock es st hfresh hids
  · intro es es2
    exact ⟨concatContents es2, concatContents_append es es2⟩

/-- C6 (witness): the worked scenario yields content `"Hello World"`. -/
theorem claim_C6_content_witness :
    (∃ m, (runStreamingTurn "compute" ids0 clock0 scen
          (initState "agent")).messages.getLast? = some m ∧
        m.content = concatContents scen) ∧
      concatContents scen = "Hello World" :=
  ⟨(claim_C6_content (initState "agent") "compute" ids0 clock0
      (by decide) (by decide)).1 scen, by decide⟩

/-! ## Claim C8 -/

/-- C8 (counterexample): after a cancelled stream the conversation-level
`isStreaming` flag is false and the received content is preserved, but
the assistant message is not left with `streaming = false`: its
streaming flag is still `true`, because only a `complete` event ever
clears it. -/
theorem claim_C8_counterexample :
    (runFailedTurn "hi" ids0 clock0 [evHel] "stream aborted"
          (initState "agent")).isStreaming = false ∧
      ((runFailedTurn "hi" ids0 clock0 [evHel] "stream aborted"
            (initState "agent")).messages.getLast?).map
          (fun m => (m.content, m.streaming)) = some ("Hel", some true) := by
  decide

/-- C8 (amended): after `stop()` aborts an in-flight stream, the
conversation has `isStreaming = false` and `isLoading = false`, the last
received content is preserved, and exactly the events decoded before the
abort are recorded; the active assistant message's `streaming` flag,
however, remains `true` when no `complete` event was received, since
only a `complete` event clears it. -/
theorem claim_C8_amended (st : ConversationState) (text err : String)
    (ids : Nat → String) (clock : Nat → Int) (es : List StreamingEvent)
    (hfresh : ∀ m ∈ st.messages, m.id ≠ ids 1) (hids : ids 0 ≠ ids 1)
    (hnc : es.any isCompleteEv = false) :
    (runFailedTurn text ids clock es err st).isStreaming = false ∧
      (runFailedTurn text ids clock es err st).isLoading = false ∧
      (∃ m, (runFailedTurn text ids clock es err st).messages.getLast? = some m ∧
        m.content = concatContents es ∧ m.streaming = some true) ∧
      (runFailedTurn text ids clock es err st).streamingEvents = es := by
  refine ⟨rfl, rfl, ?_, turnMid_streamingEvents text ids clock es st⟩
  refine ⟨turnMsg (ids 1) (clock 1) es, ?_, turnMsg_content _ _ _, ?_⟩
  · show (turnMid text ids clock es st).2.messages.getLast? = _
    exact turnMid_getLast text ids clock es st hfresh hids
  · rw [turnMsg_streaming, if_neg (by simp [hnc])]

/-- C8 (witness): the amended statement at a concrete abort after one
content event. -/
theorem claim_C8_amended_witness :
    (runFailedTurn "hi" ids0 clock0 [evHel] "stream aborted"
          (initState "agent")).isStreaming = false ∧
      (runFailedTurn "hi" ids0 clock0 [evHel] "stream aborted"
          (initState "agent")).isLoading = false ∧
      (∃ m, (runFailedTurn "hi" ids0 clock0 [evHel] "stream aborted"
            (initState "agent")).messages.getLast? = some m ∧
        m.content = concatContents [evHel] ∧ m.streaming = some true) ∧
      (runFailedTurn "hi" ids0 clock0 [evHel] "stream aborted"
          (initState "agent")).streamingEvents = [evHel] :=
  claim_C8_amended (initState "agent") "hi" "stream aborted" ids0 clock0
    [evHel] (by decide) (by decide) (by decide)

/-! ## Claim C9 -/

/-- A second wall-clock supply, offset from `clock0`. -/
def clockB : Nat → Int := fun i => 100 + (i : Int)

/-- C9 (counterexample): two replays of the identical (empty) event
sequence into a fresh conversation are not structurally identical: the
generated message identifiers come from the ambient clock and random
generator, which differ between runs, so the final state is not a
function of the event sequence alone. -/
theorem claim_C9_counterexample :
    runStreamingTurn "q" ids0 clock0 [] (initState "agent") ≠
      runStreamingTurn "q" idsB clock0 [] (initState "agent") := by
  decide

lemma stripMsg_user (text uid : String) (now : Int) :
    stripMsg (mkUserMsg text uid now) = (Role.user, text, none, none, none) := rfl

/-- C9 (amended): replaying the identical ordered event sequence is
deterministic up to the ambient supplies: two runs from the same start
state, with arbitrary identifier and clock supplies, agree on every
observable component — message roles, contents, streaming flags, event
lists and metadata, tool names, args, statuses, results and errors, the
conversation error, both flags, the agent, and the recorded events.
Only generator-assigned ids, wall-clock timestamps and clock-derived
durations may differ. -/
theorem claim_C9_amended (st : ConversationState) (text : String)
    (es : List StreamingEvent) (idsA idsC : Nat → String)
    (clockA clockC : Nat → Int)
    (hA1 : ∀ m ∈ st.messages, m.id ≠ idsA 1) (hA2 : idsA 0 ≠ idsA 1)
    (hC1 : ∀ m ∈ st.messages, m.id ≠ idsC 1) (hC2 : idsC 0 ≠ idsC 1) :
    stripState (runStreamingTurn text idsA clockA es st) =
      stripState (runStreamingTurn text idsC clockC es st) := by
  have hmA := (turnMid_messages text idsA clockA es st hA1 hA2).1
  have hmC := (turnMid_messages text idsC clockC es st hC1 hC2).1
  have hmsg : stripMsg (msgFold es (ctx0 (idsA 1))
        (mkAssistantMsg (idsA 1) (clockA 1))).2 =
      stripMsg (msgFold es (ctx0 (idsC 1))
        (mkAssistantMsg (idsC 1) (clockC 1))).2 :=
    msgFold_strip es _ _ _ _ ⟨rfl, rfl⟩ rfl
  have htool : (toolFold idsA clockA 2 es st.toolCalls).map stripTool =
      (toolFold idsC clockC 2 es st.toolCalls).map stripTool :=
    toolFold_strip idsA idsC clockA clockC es 2 2 st.toolCalls st.toolCalls rfl
  have hflagA := (turnMid_flags text idsA clockA es st).2.2
  have hflagC := (turnMid_flags text idsC clockC es st).2.2
  simp only [stripState, runStreamingTurn, sendFinally, Prod.mk.injEq]
  refine ⟨?_, ?_, ?_, trivial, trivial, ?_, ?_⟩
  · rw [hmA, hmC]
    simp only [List.map_append, List.map_cons, List.map_nil]
    rw [hmsg, stripMsg_user, stripMsg_user]
  · rw [turnMid_toolCalls, turnMid_toolCalls, htool]
  · rw [turnMid_error, turnMid_error]
  · rw [hflagA, hflagC]
  · rw [turnMid_streamingEvents, turnMid_streamingEvents]

/-- C9 (witness): the amended determinism at the worked scenario, under
two different identifier and clock supplies. -/
theorem claim_C9_amended_witness :
    stripState (runStreamingTurn "compute" ids0 clock0 scen
        (initState "agent")) =
      stripState (runStreamingTurn "compute" idsB clockB scen
        (initState "agent")) :=
  claim_C9_amended (initState "agent") "compute" scen ids0 idsB clock0 clockB
    (by decide) (by decide) (by decide) (by decide)

/-! ## Claim C7 -/

/-- The event decoded from the well-formed scenario payload. -/
def evOk : StreamingEvent := ⟨EventType.content, "ok", noMeta, 1⟩

/-- A concrete stand-in for `JSON.parse` on the scenario payloads: it
accepts exactly the well-formed payload and rejects everything else. -/
def parse0 : List Char → Option StreamingEvent := fun s =>
  if s = "\x7b\"type\":\"content\",\"content\":\"ok\"\x7d".toList then some evOk
  else none

/-- The malformed frame of the specification scenario. -/
def lineBad : List Char := "data: \x7bnot valid json".toList

/-- The well-formed frame of the specification scenario. -/
def lineGood : List Char :=
  "data: \x7b\"type\":\"content\",\"content\":\"ok\"\x7d".toList

/-- C7: a line carrying the `data: ` prefix whose payload is neither the
`[DONE]` sentinel nor parseable is dropped and decoding continues with
the remaining lines unchanged — zero events are emitted for the bad
line, the stream is not terminated, and (the decoder being a total
function) no exception propagates. -/
theorem claim_C7_malformed (parse : List Char → Option StreamingEvent)
    (l : List Char) (ls : List (List Char))
    (hpfx : dataPfx.isPrefixOf l = true) (hdone : l.drop 6 ≠ doneLit)
    (hparse : parse (l.drop 6) = none) :
    processLines parse (l :: ls) = processLines parse ls := by
  simp [processLines, hpfx, hdone, hparse]

/-- C7 (witness): the scenario `data: {not valid json` followed by
`data: {"type":"content","content":"ok"}` yields exactly one `content`
event and no termination. -/
theorem claim_C7_malformed_witness :
    processLines parse0 [lineBad, lineGood] = processLines parse0 [lineGood] ∧
      processLines parse0 [lineGood] = ([evOk], false) :=
  ⟨claim_C7_malformed parse0 lineBad [lineGood] (by decide) (by decide)
      (by decide),
    by decide⟩

/-! ## Claim C10 -/

/-- The well-formed frame, newline-terminated, as a chunk. -/
def chunkGood : List Char :=
  "data: \x7b\"type\":\"content\",\"content\":\"ok\"\x7d\n".toList

/-- C10: when the reader reports end of stream, whatever the carry
buffer holds is discarded — no event is emitted for a trailing line not
terminated by a newline, even a complete `data: ` frame; in particular a
trailing `data: [DONE]` without a newline never acts as the termination
sentinel.  Equivalently, appending a newline-free trailing chunk to any
input leaves the decoder's output unchanged. -/
theorem claim_C10_trailing_discarded :
    (∀ (parse : List Char → Option StreamingEvent) (b : List Char),
        streamAgentLoop parse [] b = ([], false)) ∧
      (∀ (parse : List Char → Option StreamingEvent)
          (cs : List (List Char)) (t b : List Char),
        '\n' ∉ b → '\n' ∉ t →
        streamAgentLoop parse (cs ++ [t]) b = streamAgentLoop parse cs b) :=
  ⟨fun parse b => streamAgentLoop_nil parse b,
    fun parse cs t b hb ht => streamAgentLoop_trailing parse cs b t hb ht⟩

/-- C10 (witness): a complete frame followed by a trailing
`data: [DONE]` without a newline decodes to one event with no
termination — exactly as if the trailing sentinel were absent. -/
theorem claim_C10_witness :
    streamAgentLoop parse0 ([chunkGood] ++ ["data: [DONE]".toList]) [] =
        streamAgentLoop parse0 [chunkGood] [] ∧
      streamAgentLoop parse0 [chunkGood] [] = ([evOk], false) :=
  ⟨claim_C10_trailing_discarded.2 parse0 [chunkGood] "data: [DONE]".toList []
      (by decide) (by decide),
    by decide⟩

end AdkChat
